import Mathlib

/-!
Verification development for the Fit-Check virtual try-on editor.

The definitions below are a shallow embedding of the undoable layered-outfit
editor of `src/App.tsx` (the `useUndoableState` hook and the editor-state
handlers) together with the data model of the repository's type declarations
and the remove-control rendering of `src/components/OutfitStack.tsx`.

Modelling conventions:
- JavaScript objects become Lean structures; `Record<string, string>` maps
  (the per-layer pose-image caches) become insertion-ordered association
  lists `List (String × String)`, since the code relies on first-inserted-key
  fallback (`Object.values(m)[0]`, `Object.keys(m)[0]`).
- `JSON.stringify`-based deep equality becomes structural equality
  (`DecidableEq`); on these value types the two coincide.
- Asynchronous Gateway calls are modelled by passing the call's outcome as an
  explicit `Except String String` argument (`.ok url` on success, `.error msg`
  on failure); each operation additionally returns the number of Gateway
  calls it performed.
- Handlers model the state visible after the operation completes (the
  `finally` cleanup included).
-/

namespace FitCheck

/-- Linear undo/redo session store, embedding `useUndoableState` of
`src/App.tsx`.  `history` is the snapshot list, `currentIndex` the cursor. -/
structure Store (T : Type) where
  history : List T
  currentIndex : Nat
deriving DecidableEq

/-- Current value: `const state = history[currentIndex]`. -/
def Store.state {T : Type} (s : Store T) : Option T :=
  s.history[s.currentIndex]?

/-- Resolution of a possibly-functional update (`typeof newState === 'function'`). -/
def resolve {T : Type} (next : T ⊕ (T → T)) (prev : T) : T :=
  match next with
  | Sum.inl v => v
  | Sum.inr f => f prev

/-- Embedding of `setState`: resolve the update against the current value;
if the resolved value deep-equals the current value do nothing; otherwise
truncate history after the cursor, append, and move the cursor to the new
end (`newHistory.length - 1`).  The `none` branch (cursor out of range) is
unreachable under the store invariant. -/
def Store.set {T : Type} [DecidableEq T] (s : Store T) (next : T ⊕ (T → T)) : Store T :=
  match s.history[s.currentIndex]? with
  | none => s
  | some cur =>
    if resolve next cur = cur then s
    else
      { history := s.history.take (s.currentIndex + 1) ++ [resolve next cur],
        currentIndex := (s.history.take (s.currentIndex + 1) ++ [resolve next cur]).length - 1 }

/-- Embedding of `undo`: move the cursor back by one unless it is at 0. -/
def Store.undo {T : Type} (s : Store T) : Store T :=
  if 0 < s.currentIndex then { s with currentIndex := s.currentIndex - 1 } else s

/-- Embedding of `redo`: move the cursor forward by one unless at the end. -/
def Store.redo {T : Type} (s : Store T) : Store T :=
  if s.currentIndex < s.history.length - 1 then { s with currentIndex := s.currentIndex + 1 } else s

/-- Embedding of `canUndo`. -/
def Store.canUndo {T : Type} (s : Store T) : Bool :=
  decide (0 < s.currentIndex)

/-- Embedding of `canRedo`. -/
def Store.canRedo {T : Type} (s : Store T) : Bool :=
  decide (s.currentIndex < s.history.length - 1)

/-- Embedding of `resetState`: replace the whole history with a single entry. -/
def Store.resetState {T : Type} (_s : Store T) (v : T) : Store T :=
  { history := [v], currentIndex := 0 }

/-- The store invariant: the cursor is a valid index into the history. -/
def Store.Valid {T : Type} (s : Store T) : Prop :=
  s.currentIndex < s.history.length

theorem Store.valid_def {T : Type} (s : Store T) :
    s.Valid ↔ s.currentIndex < s.history.length := Iff.rfl

/-- Under the invariant the current value exists. -/
theorem Store.exists_state {T : Type} (s : Store T) (hs : s.Valid) :
    ∃ cur, s.history[s.currentIndex]? = some cur := by
  cases hcur : s.history[s.currentIndex]? with
  | some cur => exact ⟨cur, rfl⟩
  | none => exact absurd (List.getElem?_eq_none_iff.mp hcur) (Nat.not_le.mpr hs)

/-- Case analysis on `Store.set` under the invariant: either a no-op (the
resolved value deep-equals the current one) or truncate-and-append with the
cursor at the new end. -/
theorem Store.set_cases {T : Type} [DecidableEq T] (s : Store T) (next : T ⊕ (T → T))
    (cur : T) (hcur : s.history[s.currentIndex]? = some cur) :
    (resolve next cur = cur ∧ s.set next = s) ∨
    (resolve next cur ≠ cur ∧
      s.set next = { history := s.history.take (s.currentIndex + 1) ++ [resolve next cur],
                     currentIndex := (s.history.take (s.currentIndex + 1)).length }) := by
  unfold Store.set
  rw [hcur]
  by_cases h : resolve next cur = cur
  · exact Or.inl ⟨h, by simp [h]⟩
  · exact Or.inr ⟨h, by simp [h]⟩

/-- Setting preserves the store invariant. -/
theorem Store.set_valid {T : Type} [DecidableEq T] {s : Store T} (hs : s.Valid)
    (next : T ⊕ (T → T)) : (s.set next).Valid := by
  obtain ⟨cur, hcur⟩ := Store.exists_state s hs
  rcases Store.set_cases s next cur hcur with ⟨_, h⟩ | ⟨_, h⟩
  · rw [h]; exact hs
  · rw [h]
    simp [Store.Valid]

/-- A member of the post-set history is an old member or the freshly appended
resolved value. -/
theorem Store.mem_set {T : Type} [DecidableEq T] {s : Store T} (hs : s.Valid)
    (next : T ⊕ (T → T)) {x : T} (hx : x ∈ (s.set next).history) :
    x ∈ s.history ∨ ∃ cur, s.history[s.currentIndex]? = some cur ∧ x = resolve next cur := by
  obtain ⟨cur, hcur⟩ := Store.exists_state s hs
  rcases Store.set_cases s next cur hcur with ⟨_, h⟩ | ⟨_, h⟩
  · rw [h] at hx; exact Or.inl hx
  · rw [h] at hx
    simp only [List.mem_append, List.mem_singleton] at hx
    rcases hx with hx | hx
    · exact Or.inl (List.take_subset _ _ hx)
    · exact Or.inr ⟨cur, hcur, hx⟩

/-- Undo then redo restores the store exactly, provided an undo step existed. -/
theorem Store.undo_redo {T : Type} (s : Store T) (hv : s.Valid) (h0 : 0 < s.currentIndex) :
    s.undo.redo = s := by
  unfold Store.undo Store.redo
  rw [if_pos h0]
  have hv' : s.currentIndex < s.history.length := hv
  have hlt : s.currentIndex - 1 < s.history.length - 1 := by omega
  simp only [hlt, if_pos]
  have : s.currentIndex - 1 + 1 = s.currentIndex := by omega
  rw [this]

/-- Sequence of `set` calls. -/
def Store.applySets {T : Type} [DecidableEq T] (s : Store T)
    (vs : List (T ⊕ (T → T))) : Store T :=
  vs.foldl Store.set s

/-- Fold step tracking, alongside the store, the head value that stood
immediately before the most recent distinct (history-mutating) `set`. -/
def traceStep {T : Type} [DecidableEq T] (p : Store T × Option T)
    (next : T ⊕ (T → T)) : Store T × Option T :=
  match p.1.history[p.1.currentIndex]? with
  | none => (p.1.set next, p.2)
  | some cur => if resolve next cur = cur then (p.1.set next, p.2) else (p.1.set next, some cur)

/-- Run a sequence of `set` calls, also returning the value held immediately
before the most recent distinct `set` (`none` when every `set` was a no-op). -/
def Store.setsTrace {T : Type} [DecidableEq T] (s : Store T)
    (vs : List (T ⊕ (T → T))) : Store T × Option T :=
  vs.foldl traceStep (s, none)

theorem traceStep_fst {T : Type} [DecidableEq T] (p : Store T × Option T)
    (next : T ⊕ (T → T)) : (traceStep p next).1 = p.1.set next := by
  unfold traceStep
  cases h : p.1.history[p.1.currentIndex]? with
  | none => rfl
  | some cur =>
    by_cases hr : resolve next cur = cur
    · simp [hr]
    · simp [hr]

theorem traceStep_eq {T : Type} [DecidableEq T] (s : Store T) (acc : Option T)
    (next : T ⊕ (T → T)) (cur : T) (hcur : s.history[s.currentIndex]? = some cur) :
    traceStep (s, acc) next =
      (s.set next, if resolve next cur = cur then acc else some cur) := by
  unfold traceStep
  simp only
  rw [hcur]
  by_cases hr : resolve next cur = cur
  · simp [hr]
  · simp [hr]

theorem foldl_traceStep_fst {T : Type} [DecidableEq T] :
    ∀ (vs : List (T ⊕ (T → T))) (p : Store T × Option T),
      (vs.foldl traceStep p).1 = vs.foldl Store.set p.1
  | [], _ => rfl
  | v :: vs, p => by
    rw [List.foldl_cons, List.foldl_cons, foldl_traceStep_fst vs (traceStep p v), traceStep_fst]

theorem trace_acc_isSome {T : Type} [DecidableEq T] :
    ∀ (vs : List (T ⊕ (T → T))) (s : Store T) (acc : Option T),
      acc.isSome = true → ((vs.foldl traceStep (s, acc)).2).isSome = true
  | [], _, _, h => h
  | v :: vs, s, acc, h => by
    rw [List.foldl_cons]
    have hstep : ((traceStep (s, acc) v).2).isSome = true := by
      unfold traceStep
      cases hg : s.history[s.currentIndex]? with
      | none => simpa using h
      | some cur =>
        by_cases hr : resolve v cur = cur
        · simpa [hr] using h
        · simp [hr]
    have := trace_acc_isSome vs (traceStep (s, acc) v).1 (traceStep (s, acc) v).2 hstep
    simpa using this

theorem trace_none_fixed {T : Type} [DecidableEq T] :
    ∀ (vs : List (T ⊕ (T → T))) (s : Store T), s.Valid →
      (vs.foldl traceStep (s, none)).2 = none → vs.foldl Store.set s = s
  | [], _, _, _ => rfl
  | v :: vs, s, hs, h => by
    obtain ⟨cur, hcur⟩ := Store.exists_state s hs
    by_cases hr : resolve v cur = cur
    · have hset : s.set v = s := ((Store.set_cases s v cur hcur).resolve_right
        (fun hc => absurd hr hc.1)).2
      have hstep : traceStep (s, (none : Option T)) v = (s, none) := by
        rw [traceStep_eq s none v cur hcur, if_pos hr, hset]
      rw [List.foldl_cons, hstep] at h
      show List.foldl Store.set (s.set v) vs = s
      rw [hset]
      exact trace_none_fixed vs s hs h
    · exfalso
      have hstep : traceStep (s, (none : Option T)) v = (s.set v, some cur) := by
        rw [traceStep_eq s none v cur hcur, if_neg hr]
      rw [List.foldl_cons, hstep] at h
      have hsome := trace_acc_isSome vs (s.set v) (some cur) rfl
      rw [h] at hsome
      exact Bool.noConfusion hsome

theorem trace_some_undo {T : Type} [DecidableEq T] :
    ∀ (vs : List (T ⊕ (T → T))) (s : Store T) (acc : Option T), s.Valid →
      (∀ p, acc = some p → s.undo.state = some p) →
      ((vs.foldl traceStep (s, acc)).1.Valid ∧
        ∀ p, (vs.foldl traceStep (s, acc)).2 = some p →
          (vs.foldl traceStep (s, acc)).1.undo.state = some p)
  | [], s, acc, hs, hacc => ⟨hs, fun p hp => hacc p hp⟩
  | v :: vs, s, acc, hs, hacc => by
    obtain ⟨cur, hcur⟩ := Store.exists_state s hs
    rw [List.foldl_cons]
    by_cases hr : resolve v cur = cur
    · have hset : s.set v = s := ((Store.set_cases s v cur hcur).resolve_right
        (fun hc => absurd hr hc.1)).2
      have hstep : traceStep (s, acc) v = (s, acc) := by
        rw [traceStep_eq s acc v cur hcur, if_pos hr, hset]
      rw [hstep]
      exact trace_some_undo vs s acc hs hacc
    · have hset : s.set v =
          { history := s.history.take (s.currentIndex + 1) ++ [resolve v cur],
            currentIndex := (s.history.take (s.currentIndex + 1)).length } :=
        ((Store.set_cases s v cur hcur).resolve_left (fun hc => absurd hc.1 hr)).2
      have hstep : traceStep (s, acc) v = (s.set v, some cur) := by
        rw [traceStep_eq s acc v cur hcur, if_neg hr]
      rw [hstep]
      have htklen : (s.history.take (s.currentIndex + 1)).length = s.currentIndex + 1 := by
        rw [List.length_take]
        exact Nat.min_eq_left (Nat.succ_le_of_lt hs)
      refine trace_some_undo vs (s.set v) (some cur) (Store.set_valid hs v) ?_
      intro p hp
      injection hp with hp
      subst hp
      unfold Store.undo Store.state
      rw [hset]
      simp only [htklen]
      rw [if_pos (Nat.succ_pos _)]
      simp only [Nat.add_sub_cancel]
      rw [List.getElem?_append_left (by rw [htklen]; omega),
        List.getElem?_take_of_lt (Nat.lt_succ_self _)]
      exact hcur

/-- C2: Undo/redo inverse law for the session store.  For every sequence of
`set` calls followed by `undo`, the resulting current value equals the value
held immediately before the most recent distinct `set` (when every `set`
coalesced, the store is unchanged, so `undo` moves back by one unless the
cursor is at 0); and a `redo` performed right after an `undo` restores the
state, hence the value, that was undone. -/
theorem c2_undo_redo_inverse {T : Type} [DecidableEq T] (s : Store T)
    (hs : s.Valid) (vs : List (T ⊕ (T → T))) :
    (∀ p, (s.setsTrace vs).2 = some p → (s.applySets vs).undo.state = some p)
    ∧ ((s.setsTrace vs).2 = none → s.applySets vs = s)
    ∧ (∀ t : Store T, t.Valid → 0 < t.currentIndex → t.undo.redo = t) := by
  refine ⟨?_, ?_, fun t hv h0 => Store.undo_redo t hv h0⟩
  · intro p hp
    have h := (trace_some_undo vs s none hs (by intro q hq; cases hq)).2 p hp
    unfold Store.setsTrace at hp
    unfold Store.applySets
    rw [← foldl_traceStep_fst vs (s, none)]
    exact h
  · intro h
    exact trace_none_fixed vs s hs h

/-- Witness for C2 at a concrete store: history `[0]`, sets `1, 1, 2`; after
`undo` the current value is `1` (the value right before the distinct set of
`2`); and on the store `⟨[5, 6], 1⟩`, `undo` then `redo` is the identity. -/
theorem c2_witness :
    ((Store.applySets ⟨[0], 0⟩
        ([Sum.inl 1, Sum.inl 1, Sum.inl 2] : List (Nat ⊕ (Nat → Nat)))).undo.state = some 1)
    ∧ (Store.redo (Store.undo (⟨[5, 6], 1⟩ : Store Nat)) = ⟨[5, 6], 1⟩) := by
  have h := c2_undo_redo_inverse (⟨[0], 0⟩ : Store Nat)
    (by rw [Store.valid_def]; decide)
    ([Sum.inl 1, Sum.inl 1, Sum.inl 2] : List (Nat ⊕ (Nat → Nat)))
  exact ⟨h.1 1 rfl, h.2.2 ⟨[5, 6], 1⟩ (by rw [Store.valid_def]; decide) (by decide)⟩

/-- C3: No-op coalescing.  When the resolved update deep-equals the current
head value, `set` leaves the store (hence history length and cursor)
unchanged; otherwise it drops all entries after the cursor, appends the
resolved value, and moves the cursor to the new end. -/
theorem c3_noop_coalescing {T : Type} [DecidableEq T] (s : Store T)
    (next : T ⊕ (T → T)) (cur : T) (hcur : s.state = some cur) :
    (resolve next cur = cur →
      s.set next = s ∧ (s.set next).history.length = s.history.length
        ∧ (s.set next).currentIndex = s.currentIndex)
    ∧ (resolve next cur ≠ cur →
      (s.set next).history = s.history.take (s.currentIndex + 1) ++ [resolve next cur]
        ∧ (s.set next).currentIndex = (s.set next).history.length - 1) := by
  unfold Store.state at hcur
  constructor
  · intro hr
    have h := ((Store.set_cases s next cur hcur).resolve_right (fun hc => absurd hr hc.1)).2
    exact ⟨h, by rw [h], by rw [h]⟩
  · intro hr
    have h := ((Store.set_cases s next cur hcur).resolve_left (fun hc => absurd hc.1 hr)).2
    rw [h]
    simp

/-- Witness for C3 at a concrete store: setting the current value `7` again is
a no-op; setting `9` truncates the redo tail and appends. -/
theorem c3_witness :
    ((⟨[7, 8], 0⟩ : Store Nat).set (Sum.inl 7) = ⟨[7, 8], 0⟩)
    ∧ ((⟨[7, 8], 0⟩ : Store Nat).set (Sum.inl 9)).history = [7, 9] := by
  have h := c3_noop_coalescing (⟨[7, 8], 0⟩ : Store Nat) (Sum.inl 7) 7 rfl
  have h' := c3_noop_coalescing (⟨[7, 8], 0⟩ : Store Nat) (Sum.inl 9) 7 rfl
  exact ⟨(h.1 rfl).1, (h'.2 (by decide)).1⟩

/-! Editor data model, from the repository's type declarations. -/

/-- Pose instruction labels (`POSE_INSTRUCTIONS` in `src/App.tsx`). -/
def POSE_INSTRUCTIONS : List String :=
  ["Full frontal view, hands on hips",
   "Slightly turned, 3/4 view",
   "Side profile view",
   "Jumping in the air, mid-action shot",
   "Walking towards camera",
   "Leaning against a wall"]

/-- Garment descriptor (`WardrobeItem`); `type` is the category (always the
`top` literal in the source). -/
structure WardrobeItem where
  id : String
  name : String
  url : String
  type : String
deriving DecidableEq

/-- One outfit layer: `garment = none` is the base-model layer; `poseImages`
is the insertion-ordered pose-instruction ↦ image-URL cache. -/
structure OutfitLayer where
  garment : Option WardrobeItem
  poseImages : List (String × String)
deriving DecidableEq

/-- Full editor snapshot (`EditorState`). -/
structure EditorState where
  modelImageUrl : Option String
  outfitHistory : List OutfitLayer
  currentOutfitIndex : Nat
  currentPose : String
deriving DecidableEq

/-- The `initialEditorState` object of `src/App.tsx`. -/
def initialEditorState : EditorState :=
  { modelImageUrl := none,
    outfitHistory := [],
    currentOutfitIndex := 0,
    currentPose := POSE_INSTRUCTIONS.headD "" }

/-- Key lookup on a pose-image record (`m[pose]`), returning the value of the
first entry with the given key. -/
def lookupPose (pose : String) (m : List (String × String)) : Option String :=
  (m.find? (fun p => p.1 == pose)).map (fun p => p.2)

/-- JavaScript object-spread update `\x7b ...m, [pose]: v \x7d`: replace the
value in place when the key is present (keeping its insertion position),
append a new entry otherwise. -/
def upsertPose (m : List (String × String)) (pose v : String) : List (String × String) :=
  if m.any (fun p => p.1 == pose) then
    m.map (fun p => if p.1 == pose then (p.1, v) else p)
  else
    m ++ [(pose, v)]

/-- Embedding of the `displayImageUrl` derivation of `src/App.tsx`: the model
image when no layers exist (or the active layer is missing), otherwise the
active layer's image for the current pose, falling back to the first-inserted
pose variant (`Object.values(...)[0]`). -/
def displayImageUrl (st : EditorState) : Option String :=
  if st.outfitHistory.length = 0 then st.modelImageUrl
  else
    match st.outfitHistory[st.currentOutfitIndex]? with
    | none => st.modelImageUrl
    | some currentLayer =>
      match lookupPose st.currentPose currentLayer.poseImages with
      | some u => some u
      | none => currentLayer.poseImages.head?.map (fun p => p.2)

/-- The active outfit: `outfitHistory.slice(0, currentOutfitIndex + 1)`. -/
def activeOutfitLayers (st : EditorState) : List OutfitLayer :=
  st.outfitHistory.take (st.currentOutfitIndex + 1)

/-- Indices of layers for which `OutfitStack` renders a remove control: the
component maps over the layers it receives and shows the trash button exactly
when `index > 0` (see `src/components/OutfitStack.tsx`). -/
def removeButtonIndices (outfitHistory : List OutfitLayer) : List Nat :=
  (List.range outfitHistory.length).filter (fun index => 0 < index)

/-- Process-level view state around the editor snapshot: current error
message, the loading flag, and the other two components of the advisory busy
flag.  (The wardrobe registry, suggestions and modal state play no part in
the claims and are not modelled.) -/
structure AppState where
  editor : EditorState
  error : Option String
  isLoading : Bool
  isStyling : Bool
  isShooting : Bool
deriving DecidableEq

/-- The advisory busy flag `isBusy = isLoading || isStyling || isShooting`. -/
def isBusy (app : AppState) : Bool :=
  app.isLoading || app.isStyling || app.isShooting

/-- Modelled from the spec: the repository imports `getFriendlyErrorMessage`
from `./lib/utils`, whose source is not present under `src/`; per the spec,
every Gateway-origin failure is mapped to a single user-facing message
string built from the raw message and a per-operation fallback.  No claim
depends on the content of this string, only on an error being surfaced. -/
def getFriendlyErrorMessage (message fallback : String) : String :=
  fallback ++ ": " ++ message

/-- The redo-shortcut test of `handleGarmentSelect`: the layer immediately
after the active index exists and carries a garment with the selected id
(`nextLayer && nextLayer.garment?.id === garmentInfo.id`). -/
def redoShortcut (st : EditorState) (garmentInfo : WardrobeItem) : Bool :=
  match st.outfitHistory[st.currentOutfitIndex + 1]? with
  | some nextLayer => nextLayer.garment.map WardrobeItem.id == some garmentInfo.id
  | none => false

/-- Network part of `handleGarmentSelect` (after the guard and the
redo-shortcut check): optional enhance pass, then the try-on call; on any
failure only the error message is installed and the loading flag cleared; on
success the redo tail of the layer list is truncated, the new layer appended
and the active index advanced.  `cleanupRes`, on success, carries the object
URL of the enhanced garment file. -/
def applyGarmentNetwork (app : AppState) (garmentInfo : WardrobeItem) (enhance : Bool)
    (cleanupRes tryOnRes : Except String String) : AppState × Nat :=
  match enhance, cleanupRes with
  | true, Except.error msg =>
    ({ app with error := some (getFriendlyErrorMessage msg "Failed to apply garment"),
                isLoading := false }, 1)
  | _, _ =>
    match tryOnRes with
    | Except.error msg =>
      ({ app with error := some (getFriendlyErrorMessage msg "Failed to apply garment"),
                  isLoading := false }, (if enhance then 1 else 0) + 1)
    | Except.ok newImageUrl =>
      ({ app with
          editor := { app.editor with
            outfitHistory := app.editor.outfitHistory.take (app.editor.currentOutfitIndex + 1)
              ++ [{ garment := some
                      (match enhance, cleanupRes with
                       | true, Except.ok enhancedUrl => { garmentInfo with url := enhancedUrl }
                       | _, _ => garmentInfo),
                    poseImages := [(app.editor.currentPose, newImageUrl)] }],
            currentOutfitIndex := app.editor.currentOutfitIndex + 1 },
          error := none, isLoading := false }, (if enhance then 1 else 0) + 1)

/-- Embedding of `handleGarmentSelect`: guard on a missing display image or
the busy flag; redo shortcut (no Gateway call, the active index just
advances); otherwise the network path. -/
def handleGarmentSelect (app : AppState) (garmentInfo : WardrobeItem) (enhance : Bool)
    (cleanupRes tryOnRes : Except String String) : AppState × Nat :=
  if (displayImageUrl app.editor).isNone || isBusy app then (app, 0)
  else if redoShortcut app.editor garmentInfo then
    ({ app with editor :=
        { app.editor with currentOutfitIndex := app.editor.currentOutfitIndex + 1 } }, 0)
  else
    applyGarmentNetwork app garmentInfo enhance cleanupRes tryOnRes

/-- Embedding of `handlePoseSelect`: guard on busy, no layers, or an
unchanged pose; a cached pose only moves `currentPose`; otherwise a Gateway
call whose result is inserted into the active layer's pose cache.  The
out-of-range active-layer access (unreachable under the layer invariant, and
a thrown TypeError in the source) leaves the state unchanged. -/
def handlePoseSelect (app : AppState) (newPose : String)
    (gwRes : Except String String) : AppState × Nat :=
  if isBusy app || app.editor.outfitHistory.length == 0 || newPose == app.editor.currentPose then
    (app, 0)
  else
    match app.editor.outfitHistory[app.editor.currentOutfitIndex]? with
    | none => (app, 0)
    | some currentLayer =>
      if (lookupPose newPose currentLayer.poseImages).isSome then
        ({ app with editor := { app.editor with currentPose := newPose } }, 0)
      else
        match currentLayer.poseImages.head? with
        | none => (app, 0)
        | some _ =>
          match gwRes with
          | Except.error msg =>
            ({ app with error := some (getFriendlyErrorMessage msg "Failed to change pose"),
                        isLoading := false }, 1)
          | Except.ok newImageUrl =>
            ({ app with
                editor := { app.editor with
                  outfitHistory := app.editor.outfitHistory.set app.editor.currentOutfitIndex
                    { currentLayer with
                        poseImages := upsertPose currentLayer.poseImages newPose newImageUrl },
                  currentPose := newPose },
                error := none, isLoading := false }, 1)

/-- Embedding of `handleBackgroundChange`: guard on a missing display image
or the busy flag; on success the image for the currently active pose of the
active layer is overwritten in place.  The out-of-range write (unreachable
under the layer invariant) leaves the layer list unchanged. -/
def handleBackgroundChange (app : AppState) (_backgroundPrompt : String)
    (gwRes : Except String String) : AppState × Nat :=
  if (displayImageUrl app.editor).isNone || isBusy app then (app, 0)
  else
    match gwRes with
    | Except.error msg =>
      ({ app with error := some (getFriendlyErrorMessage msg "Failed to change background"),
                  isLoading := false }, 1)
    | Except.ok newImageUrl =>
      match app.editor.outfitHistory[app.editor.currentOutfitIndex]? with
      | none => ({ app with error := none, isLoading := false }, 1)
      | some currentLayer =>
        ({ app with
            editor := { app.editor with
              outfitHistory := app.editor.outfitHistory.set app.editor.currentOutfitIndex
                { currentLayer with
                    poseImages := upsertPose currentLayer.poseImages app.editor.currentPose
                      newImageUrl } },
            error := none, isLoading := false }, 1)

/-- Embedding of `handleRepattern`: guard on a missing display image, an
absent repattern target, or the busy flag; on success the active layer's
whole pose cache is replaced by the single entry for the currently active
pose.  The target's `layerIndex`/`garmentName` feed only the prompt and the
loading message.  The out-of-range write (unreachable under the layer
invariant) leaves the layer list unchanged. -/
def handleRepattern (app : AppState) (repatternTarget : Option (Nat × String))
    (_patternPrompt : String) (gwRes : Except String String) : AppState × Nat :=
  if (displayImageUrl app.editor).isNone || repatternTarget.isNone || isBusy app then (app, 0)
  else
    match gwRes with
    | Except.error msg =>
      ({ app with error := some (getFriendlyErrorMessage msg "Failed to repattern garment"),
                  isLoading := false }, 1)
    | Except.ok newImageUrl =>
      match app.editor.outfitHistory[app.editor.currentOutfitIndex]? with
      | none => ({ app with error := none, isLoading := false }, 1)
      | some currentLayer =>
        ({ app with
            editor := { app.editor with
              outfitHistory := app.editor.outfitHistory.set app.editor.currentOutfitIndex
                { currentLayer with
                    poseImages := [(app.editor.currentPose, newImageUrl)] } },
            error := none, isLoading := false }, 1)

/-- Snapshot transformation of `handleRemoveLayer`: truncate the layer list
strictly before `layerIndex`, step the active index back to `layerIndex - 1`,
and keep the current pose if the new active layer still caches it, falling
back to that layer's first-inserted pose key.  `none` models the
undefined accesses of the source: reading the layer at `layerIndex - 1` when
it does not exist (a thrown TypeError), or falling back to the first key of
an empty pose cache (`currentPose` would become `undefined`). -/
def removeLayerEditor (st : EditorState) (layerIndex : Nat) : Option EditorState :=
  match (st.outfitHistory.take layerIndex)[layerIndex - 1]? with
  | none => none
  | some lastValidLayer =>
    match lookupPose st.currentPose lastValidLayer.poseImages with
    | some _ =>
      some { st with outfitHistory := st.outfitHistory.take layerIndex,
                     currentOutfitIndex := layerIndex - 1 }
    | none =>
      match lastValidLayer.poseImages.head? with
      | none => none
      | some kv =>
        some { st with outfitHistory := st.outfitHistory.take layerIndex,
                       currentOutfitIndex := layerIndex - 1,
                       currentPose := kv.1 }

/-- Embedding of `handleRemoveLayer`: guard on the busy flag, then install
the transformed snapshot; a crash inside the functional update (modelled by
`none`) installs nothing. -/
def handleRemoveLayer (app : AppState) (layerIndex : Nat) : AppState :=
  if isBusy app then app
  else
    match removeLayerEditor app.editor layerIndex with
    | none => app
    | some st => { app with editor := st }

/-- The snapshot installed by `handleModelFinalized`: one base layer whose
sole pose variant is the finalized model image under the default pose. -/
def finalizedState (url : String) : EditorState :=
  { initialEditorState with
      modelImageUrl := some url,
      outfitHistory := [{ garment := none,
                          poseImages := [(POSE_INSTRUCTIONS.headD "", url)] }] }

/-- Looking up the key of the first entry succeeds with that entry's value. -/
theorem lookupPose_head (kv : String × String) (rest : List (String × String)) :
    lookupPose kv.1 (kv :: rest) = some kv.2 := by
  unfold lookupPose
  rw [List.find?_cons_of_pos _ (by simp)]
  rfl

/-- C9: Displayed-image derivation.  For every snapshot the derived display
image is the model image when the layer list is empty; otherwise, when the
layer `L` at the active index exists, it is `L`'s variant for the active pose
when that key is present, and the value at the first-inserted key of `L`'s
pose-variant map otherwise. -/
theorem c9_displayed_image_derivation (st : EditorState) :
    (st.outfitHistory = [] → displayImageUrl st = st.modelImageUrl)
    ∧ (∀ L, st.outfitHistory[st.currentOutfitIndex]? = some L →
        (∀ u, lookupPose st.currentPose L.poseImages = some u → displayImageUrl st = some u)
        ∧ (lookupPose st.currentPose L.poseImages = none →
            displayImageUrl st = L.poseImages.head?.map (fun p => p.2))) := by
  constructor
  · intro h
    unfold displayImageUrl
    rw [h]
    simp
  · intro L hL
    have hne : ¬st.outfitHistory.length = 0 := by
      intro h0
      rw [List.length_eq_zero] at h0
      rw [h0] at hL
      simp at hL
    constructor
    · intro u hu
      unfold displayImageUrl
      rw [if_neg hne, hL]
      simp [hu]
    · intro hu
      unfold displayImageUrl
      rw [if_neg hne, hL]
      simp [hu]

/-- Witness for C9: on a one-layer snapshot the cached pose image is
displayed, and with an unknown active pose the first-inserted variant is
displayed. -/
theorem c9_witness :
    displayImageUrl ⟨some "M", [⟨none, [("front", "M")]⟩], 0, "front"⟩ = some "M"
    ∧ displayImageUrl ⟨some "M", [⟨none, [("front", "M")]⟩], 0, "side"⟩ = some "M" := by
  refine ⟨((c9_displayed_image_derivation
      ⟨some "M", [⟨none, [("front", "M")]⟩], 0, "front"⟩).2
      ⟨none, [("front", "M")]⟩ rfl).1 "M" (by decide), ?_⟩
  have h := ((c9_displayed_image_derivation
      ⟨some "M", [⟨none, [("front", "M")]⟩], 0, "side"⟩).2
      ⟨none, [("front", "M")]⟩ rfl).2 (by decide)
  simpa using h

/-- C5: `removeLayer` semantics.  For a valid snapshot and a `layerIndex`
with `0 < layerIndex ≤ activeLayerIndex`, the operation truncates the layer
list to everything strictly before `layerIndex`, sets the active index to
`layerIndex - 1`, and keeps the active pose when the new active layer still
caches it, otherwise switching to an existing variant key (the
first-inserted one) of that layer; the removed layer and everything after it
are gone from the live layer list. -/
theorem c5_remove_layer (st : EditorState) (layerIndex : Nat)
    (h0 : 0 < layerIndex) (hr : layerIndex ≤ st.currentOutfitIndex)
    (hv : st.currentOutfitIndex < st.outfitHistory.length)
    (L : OutfitLayer) (hL : st.outfitHistory[layerIndex - 1]? = some L)
    (hne : L.poseImages ≠ []) :
    removeLayerEditor st layerIndex =
      some { st with
        outfitHistory := st.outfitHistory.take layerIndex,
        currentOutfitIndex := layerIndex - 1,
        currentPose :=
          match lookupPose st.currentPose L.poseImages with
          | some _ => st.currentPose
          | none => (L.poseImages.headD ("", "")).1 }
    ∧ (∀ st2, removeLayerEditor st layerIndex = some st2 →
        (lookupPose st2.currentPose L.poseImages).isSome = true
        ∧ st2.outfitHistory.length = layerIndex) := by
  have hL' : (st.outfitHistory.take layerIndex)[layerIndex - 1]? = some L := by
    rw [List.getElem?_take_of_lt (by omega)]
    exact hL
  have hlen : (st.outfitHistory.take layerIndex).length = layerIndex := by
    rw [List.length_take]
    omega
  unfold removeLayerEditor
  simp only [hL']
  cases hlk : lookupPose st.currentPose L.poseImages with
  | some u =>
    refine ⟨rfl, ?_⟩
    intro st2 h2
    injection h2 with h2
    subst h2
    exact ⟨by rw [hlk]; rfl, hlen⟩
  | none =>
    cases hP : L.poseImages with
    | nil => exact absurd hP hne
    | cons kv rest =>
      refine ⟨rfl, ?_⟩
      intro st2 h2
      injection h2 with h2
      subst h2
      refine ⟨?_, hlen⟩
      show (lookupPose kv.1 (kv :: rest)).isSome = true
      rw [lookupPose_head]
      rfl

/-- Witness for C5: removing the garment layer of a two-layer snapshot
leaves the base layer active with the kept pose. -/
theorem c5_witness :
    removeLayerEditor
      ⟨some "M", [⟨none, [("front", "M")]⟩, ⟨some ⟨"g1", "G", "u", "top"⟩, [("front", "X")]⟩],
        1, "front"⟩ 1 =
      some ⟨some "M", [⟨none, [("front", "M")]⟩], 0, "front"⟩ := by
  have h := (c5_remove_layer
    ⟨some "M", [⟨none, [("front", "M")]⟩, ⟨some ⟨"g1", "G", "u", "top"⟩, [("front", "X")]⟩],
      1, "front"⟩ 1
    (by decide) (by decide) (by decide)
    ⟨none, [("front", "M")]⟩ (by decide) (by decide)).1
  simpa using h

/-- C10: implicit safety of `removeLayer`.  The operation performs no bounds
check of its own; under the snapshot invariant (a valid active index) plus
non-empty per-layer pose caches, for every `layerIndex` with
`1 ≤ layerIndex ≤ activeLayerIndex` both internal accesses (the layer at
`layerIndex - 1` of the truncated list and the first key of its pose cache)
are defined, so the undefined-access outcome is unreachable; and the
exclusion of `layerIndex = 0` is enforced only by the caller, which renders
a remove control exactly for the indices `1 ≤ j ≤ activeLayerIndex` of the
active layer list. -/
theorem c10_remove_layer_safety (st : EditorState) (layerIndex : Nat)
    (hpose : ∀ L ∈ st.outfitHistory, L.poseImages ≠ [])
    (h1 : 1 ≤ layerIndex) (h2 : layerIndex ≤ st.currentOutfitIndex)
    (hv : st.currentOutfitIndex < st.outfitHistory.length) :
    ((st.outfitHistory.take layerIndex)[layerIndex - 1]?).isSome = true
    ∧ (∀ L, (st.outfitHistory.take layerIndex)[layerIndex - 1]? = some L →
        L.poseImages.head?.isSome = true)
    ∧ (removeLayerEditor st layerIndex).isSome = true
    ∧ (∀ j, j ∈ removeButtonIndices (activeOutfitLayers st) ↔
        1 ≤ j ∧ j ≤ st.currentOutfitIndex) := by
  have hidx : layerIndex - 1 < st.outfitHistory.length := by omega
  obtain ⟨L, hL⟩ : ∃ L, st.outfitHistory[layerIndex - 1]? = some L := by
    cases hg : st.outfitHistory[layerIndex - 1]? with
    | some L => exact ⟨L, rfl⟩
    | none => exact absurd (List.getElem?_eq_none_iff.mp hg) (Nat.not_le.mpr hidx)
  have hL' : (st.outfitHistory.take layerIndex)[layerIndex - 1]? = some L := by
    rw [List.getElem?_take_of_lt (by omega)]
    exact hL
  have hmem : L ∈ st.outfitHistory := List.getElem?_mem hL
  have hP : L.poseImages ≠ [] := hpose L hmem
  have hhead : L.poseImages.head?.isSome = true := by
    cases hc : L.poseImages with
    | nil => exact absurd hc hP
    | cons kv rest => rfl
  refine ⟨by rw [hL']; rfl, ?_, ?_, ?_⟩
  · intro L2 hL2
    rw [hL'] at hL2
    injection hL2 with hL2
    subst hL2
    exact hhead
  · unfold removeLayerEditor
    simp only [hL']
    cases hlk : lookupPose st.currentPose L.poseImages with
    | some u => rfl
    | none =>
      cases hc : L.poseImages with
      | nil => exact absurd hc hP
      | cons kv rest => rfl
  · intro j
    unfold removeButtonIndices activeOutfitLayers
    rw [List.mem_filter]
    simp only [List.mem_range, List.length_take, decide_eq_true_eq]
    omega

/-- Witness for C10: on a valid two-layer snapshot the internal accesses of
`removeLayer 1` are defined and the remove control is rendered exactly at
index 1. -/
theorem c10_witness :
    (removeLayerEditor
      ⟨some "M", [⟨none, [("front", "M")]⟩, ⟨some ⟨"g1", "G", "u", "top"⟩, [("front", "X")]⟩],
        1, "front"⟩ 1).isSome = true
    ∧ (1 ∈ removeButtonIndices (activeOutfitLayers
        ⟨some "M", [⟨none, [("front", "M")]⟩, ⟨some ⟨"g1", "G", "u", "top"⟩, [("front", "X")]⟩],
          1, "front"⟩) ↔ 1 ≤ 1 ∧ 1 ≤ 1) := by
  have h := c10_remove_layer_safety
    ⟨some "M", [⟨none, [("front", "M")]⟩, ⟨some ⟨"g1", "G", "u", "top"⟩, [("front", "X")]⟩],
      1, "front"⟩ 1
    (by decide) (by decide) (by decide) (by decide)
  exact ⟨h.2.2.1, h.2.2.2 1⟩

/-- C4: redo shortcut of `applyGarment`.  Whenever the operation runs (the
display image exists and the app is not busy) and the layer immediately
after the active index in the existing layer list carries a garment with the
selected id, no Gateway call is made and the result only advances the active
index by one: layer list, model image and active pose are unchanged (the
stashed layer is reused). -/
theorem c4_redo_shortcut (app : AppState) (garmentInfo : WardrobeItem) (enhance : Bool)
    (cleanupRes tryOnRes : Except String String)
    (hdisp : (displayImageUrl app.editor).isNone = false)
    (hbusy : isBusy app = false)
    (nl : OutfitLayer) (g : WardrobeItem)
    (hnext : app.editor.outfitHistory[app.editor.currentOutfitIndex + 1]? = some nl)
    (hg : nl.garment = some g) (hid : g.id = garmentInfo.id) :
    handleGarmentSelect app garmentInfo enhance cleanupRes tryOnRes =
      ({ app with editor :=
          { app.editor with currentOutfitIndex := app.editor.currentOutfitIndex + 1 } }, 0) := by
  have hshort : redoShortcut app.editor garmentInfo = true := by
    unfold redoShortcut
    rw [hnext]
    simp [hg, hid]
  unfold handleGarmentSelect
  rw [hdisp, hbusy, hshort]
  rfl

/-- Witness for C4: re-selecting the stashed garment `g1` advances the index
without a Gateway call. -/
theorem c4_witness :
    handleGarmentSelect
      ⟨⟨some "M", [⟨none, [("front", "M")]⟩, ⟨some ⟨"g1", "G", "u", "top"⟩, [("front", "X")]⟩],
          0, "front"⟩, none, false, false, false⟩
      ⟨"g1", "G", "u", "top"⟩ false (Except.ok "E") (Except.ok "X2") =
      (⟨⟨some "M", [⟨none, [("front", "M")]⟩, ⟨some ⟨"g1", "G", "u", "top"⟩, [("front", "X")]⟩],
          1, "front"⟩, none, false, false, false⟩, 0) := by
  have h := c4_redo_shortcut
    ⟨⟨some "M", [⟨none, [("front", "M")]⟩, ⟨some ⟨"g1", "G", "u", "top"⟩, [("front", "X")]⟩],
        0, "front"⟩, none, false, false, false⟩
    ⟨"g1", "G", "u", "top"⟩ false (Except.ok "E") (Except.ok "X2")
    (by decide) (by decide)
    ⟨some ⟨"g1", "G", "u", "top"⟩, [("front", "X")]⟩ ⟨"g1", "G", "u", "top"⟩
    (by decide) (by decide) (by decide)
  simpa using h

/-- C8: repattern narrows the pose cache.  After a successful `repattern`
call the modified layer (the one at the active index) has a pose-variant map
with exactly the single entry keyed by the pose active at the time of the
call, mapping to the Gateway's image; all previously cached variants of that
layer are discarded, and the garment of the layer is kept. -/
theorem c8_repattern_narrows_cache (app : AppState) (target : Nat × String)
    (patternPrompt newImageUrl : String)
    (hdisp : (displayImageUrl app.editor).isNone = false)
    (hbusy : isBusy app = false)
    (L : OutfitLayer)
    (hL : app.editor.outfitHistory[app.editor.currentOutfitIndex]? = some L) :
    (handleRepattern app (some target) patternPrompt
        (Except.ok newImageUrl)).1.editor.outfitHistory[app.editor.currentOutfitIndex]? =
      some { L with poseImages := [(app.editor.currentPose, newImageUrl)] } := by
  have hidx : app.editor.currentOutfitIndex < app.editor.outfitHistory.length := by
    rcases List.getElem?_eq_some_iff.mp hL with ⟨h, _⟩
    exact h
  unfold handleRepattern
  rw [hdisp, hbusy]
  simp only [Option.isNone_some, Bool.false_or, Bool.or_false, if_neg (by simp : ¬False)]
  rw [hL]
  simp only
  exact List.getElem?_set_self hidx

/-- Witness for C8: repatterning on a one-garment snapshot leaves a single
pose entry under the active pose. -/
theorem c8_witness :
    (handleRepattern
      ⟨⟨some "M", [⟨none, [("front", "M")]⟩, ⟨some ⟨"g1", "G", "u", "top"⟩,
          [("front", "X"), ("side", "Xs")]⟩], 1, "front"⟩, none, false, false, false⟩
      (some (1, "G")) "stripes"
      (Except.ok "Y")).1.editor.outfitHistory[1]? =
      some ⟨some ⟨"g1", "G", "u", "top"⟩, [("front", "Y")]⟩ := by
  have h := c8_repattern_narrows_cache
    ⟨⟨some "M", [⟨none, [("front", "M")]⟩, ⟨some ⟨"g1", "G", "u", "top"⟩,
        [("front", "X"), ("side", "Xs")]⟩], 1, "front"⟩, none, false, false, false⟩
    (1, "G") "stripes" "Y" (by decide) (by decide)
    ⟨some ⟨"g1", "G", "u", "top"⟩, [("front", "X"), ("side", "Xs")]⟩ (by decide)
  simpa using h

/-- C6: failure atomicity.  For each Gateway-calling operation
(`applyGarment` in its three call shapes, `selectPose`, `changeBackground`,
`repattern`), whenever the operation reaches its Gateway call and that call
fails, the editor snapshot is left exactly as before the call (the `editor`
field of the result is untouched), an error is surfaced, and the
loading flag ends cleared; the last four conjuncts state that the
guaranteed-run cleanup also clears the loading flag on success. -/
theorem c6_failure_atomicity (app : AppState) (garmentInfo : WardrobeItem)
    (msg newPose backgroundPrompt patternPrompt enhancedUrl okUrl : String)
    (target : Nat × String) (currentLayer : OutfitLayer)
    (hbusy : isBusy app = false)
    (hdisp : (displayImageUrl app.editor).isNone = false)
    (hshort : redoShortcut app.editor garmentInfo = false)
    (hcl : app.editor.outfitHistory[app.editor.currentOutfitIndex]? = some currentLayer)
    (hnz : app.editor.outfitHistory ≠ [])
    (hnp : newPose ≠ app.editor.currentPose)
    (hcache : lookupPose newPose currentLayer.poseImages = none)
    (hbase : currentLayer.poseImages ≠ []) :
    (handleGarmentSelect app garmentInfo false (Except.ok enhancedUrl) (Except.error msg) =
      ({ app with error := some (getFriendlyErrorMessage msg "Failed to apply garment"),
                  isLoading := false }, 1))
    ∧ (∀ tryOnRes, handleGarmentSelect app garmentInfo true (Except.error msg) tryOnRes =
      ({ app with error := some (getFriendlyErrorMessage msg "Failed to apply garment"),
                  isLoading := false }, 1))
    ∧ (handleGarmentSelect app garmentInfo true (Except.ok enhancedUrl) (Except.error msg) =
      ({ app with error := some (getFriendlyErrorMessage msg "Failed to apply garment"),
                  isLoading := false }, 2))
    ∧ (handlePoseSelect app newPose (Except.error msg) =
      ({ app with error := some (getFriendlyErrorMessage msg "Failed to change pose"),
                  isLoading := false }, 1))
    ∧ (handleBackgroundChange app backgroundPrompt (Except.error msg) =
      ({ app with error := some (getFriendlyErrorMessage msg "Failed to change background"),
                  isLoading := false }, 1))
    ∧ (handleRepattern app (some target) patternPrompt (Except.error msg) =
      ({ app with error := some (getFriendlyErrorMessage msg "Failed to repattern garment"),
                  isLoading := false }, 1))
    ∧ ((handleGarmentSelect app garmentInfo false (Except.ok enhancedUrl)
          (Except.ok okUrl)).1.isLoading = false)
    ∧ ((handlePoseSelect app newPose (Except.ok okUrl)).1.isLoading = false)
    ∧ ((handleBackgroundChange app backgroundPrompt (Except.ok okUrl)).1.isLoading = false)
    ∧ ((handleRepattern app (some target) patternPrompt (Except.ok okUrl)).1.isLoading = false) := by
  have hguard1 : ((displayImageUrl app.editor).isNone || isBusy app) = false := by
    rw [hdisp, hbusy]
    rfl
  have hguard2 : (isBusy app || (app.editor.outfitHistory.length == 0)
      || (newPose == app.editor.currentPose)) = false := by
    rw [hbusy]
    simp [List.length_eq_zero, hnz, hnp]
  have hguardR : ((displayImageUrl app.editor).isNone || (some target).isNone
      || isBusy app) = false := by
    rw [hdisp, hbusy]
    rfl
  obtain ⟨kv, rest, hP⟩ : ∃ kv rest, currentLayer.poseImages = kv :: rest := by
    cases hc : currentLayer.poseImages with
    | nil => exact absurd hc hbase
    | cons kv rest => exact ⟨kv, rest, rfl⟩
  have happly : ∀ (e : Bool) (cr tr : Except String String),
      handleGarmentSelect app garmentInfo e cr tr =
        applyGarmentNetwork app garmentInfo e cr tr := by
    intro e cr tr
    unfold handleGarmentSelect
    rw [hguard1, hshort]
    simp
  have hposeStep : ∀ gw : Except String String,
      handlePoseSelect app newPose gw =
        (match gw with
         | Except.error m =>
           ({ app with error := some (getFriendlyErrorMessage m "Failed to change pose"),
                       isLoading := false }, 1)
         | Except.ok newImageUrl =>
           ({ app with
               editor := { app.editor with
                 outfitHistory := app.editor.outfitHistory.set app.editor.currentOutfitIndex
                   { currentLayer with
                       poseImages := upsertPose currentLayer.poseImages newPose newImageUrl },
                 currentPose := newPose },
               error := none, isLoading := false }, 1)) := by
    intro gw
    have hcache2 : lookupPose newPose (kv :: rest) = none := by
      rw [← hP]
      exact hcache
    unfold handlePoseSelect
    rw [hguard2]
    simp only [Bool.false_eq_true, if_false, hcl, hP, hcache2, Option.isSome_none,
      List.head?_cons]
  refine ⟨?_, ?_, ?_, ?_, ?_, ?_, ?_, ?_, ?_, ?_⟩
  · rw [happly]
    rfl
  · intro tryOnRes
    rw [happly]
    rfl
  · rw [happly]
    rfl
  · rw [hposeStep]
  · unfold handleBackgroundChange
    rw [hguard1]
    rfl
  · unfold handleRepattern
    rw [hguardR]
    rfl
  · rw [happly]
    rfl
  · rw [hposeStep]
  · unfold handleBackgroundChange
    rw [hguard1]
    simp only [Bool.false_eq_true, if_false, hcl]
  · unfold handleRepattern
    rw [hguardR]
    simp only [Bool.false_eq_true, if_false, hcl]

/-- Witness for C6: on a concrete one-layer app state a failing pose call
surfaces an error, clears the loading flag, and leaves the snapshot intact;
a failing background call also leaves the snapshot intact. -/
theorem c6_witness :
    handlePoseSelect
      ⟨⟨some "M", [⟨none, [("front", "M")]⟩], 0, "front"⟩, none, false, false, false⟩
      "side" (Except.error "boom") =
      (⟨⟨some "M", [⟨none, [("front", "M")]⟩], 0, "front"⟩,
        some (getFriendlyErrorMessage "boom" "Failed to change pose"), false, false, false⟩, 1)
    ∧ (handleBackgroundChange
        ⟨⟨some "M", [⟨none, [("front", "M")]⟩], 0, "front"⟩, none, false, false, false⟩
        "beach" (Except.error "boom")).1.editor =
      ⟨some "M", [⟨none, [("front", "M")]⟩], 0, "front"⟩ := by
  have h := c6_failure_atomicity
    ⟨⟨some "M", [⟨none, [("front", "M")]⟩], 0, "front"⟩, none, false, false, false⟩
    ⟨"g1", "G", "u", "top"⟩ "boom" "side" "beach" "stripes" "eu" "ok"
    (1, "G") ⟨none, [("front", "M")]⟩
    (by decide) (by decide) (by decide) (by decide) (by decide) (by decide)
    (by decide) (by decide)
  exact ⟨h.2.2.2.1, by rw [h.2.2.2.2.1]⟩

/-! Whole-system level: the session store over editor snapshots driven by the
engine operations, for the layer invariant and the undo scenario. -/

/-- Engine operations of the claim on the layer invariant; each
Gateway-calling operation carries its call outcomes as data. -/
inductive Op where
  | finalizeModel (url : String)
  | applyGarment (garmentInfo : WardrobeItem) (enhance : Bool)
      (cleanupRes tryOnRes : Except String String)
  | selectPose (newPose : String) (gwRes : Except String String)
  | changeBackground (backgroundPrompt : String) (gwRes : Except String String)
  | removeLayer (layerIndex : Nat)
  | reset
  | undo
  | redo

/-- Whole-app system state: the session store over editor snapshots plus the
error and busy flags. -/
structure AppSystem where
  store : Store EditorState
  error : Option String
  isLoading : Bool
  isStyling : Bool
  isShooting : Bool
deriving DecidableEq

/-- The app state a handler sees: the current head snapshot plus the flags.
Under the store invariant the head always exists and the default is never
read. -/
def AppSystem.appState (sys : AppSystem) : AppState :=
  ⟨sys.store.state.getD initialEditorState, sys.error, sys.isLoading,
    sys.isStyling, sys.isShooting⟩

/-- Install a handler result: the editor snapshot goes through the session
store's `set` (an unchanged snapshot coalesces to a no-op, matching the
source, which never calls `setEditorState` on abort paths), and the flags
are taken over directly. -/
def AppSystem.install (sys : AppSystem) (app : AppState) : AppSystem :=
  { store := sys.store.set (Sum.inl app.editor),
    error := app.error,
    isLoading := app.isLoading,
    isStyling := app.isStyling,
    isShooting := app.isShooting }

/-- One engine operation on the whole system, also returning the number of
Gateway calls made.  `finalizeModel` (`handleModelFinalized`) and `reset`
(`handleStartOver`) replace the whole history via `resetState`
(`handleStartOver` additionally clears the error, loading and styling
state); `undo`/`redo` move the cursor; the remaining operations run their
handler against the current head snapshot and install the result. -/
def stepOpN (sys : AppSystem) (op : Op) : AppSystem × Nat :=
  match op with
  | Op.finalizeModel url =>
    ({ sys with store := sys.store.resetState (finalizedState url) }, 0)
  | Op.reset =>
    ({ store := sys.store.resetState initialEditorState, error := none,
       isLoading := false, isStyling := false, isShooting := sys.isShooting }, 0)
  | Op.undo => ({ sys with store := sys.store.undo }, 0)
  | Op.redo => ({ sys with store := sys.store.redo }, 0)
  | Op.applyGarment garmentInfo enhance cleanupRes tryOnRes =>
    let r := handleGarmentSelect sys.appState garmentInfo enhance cleanupRes tryOnRes
    (sys.install r.1, r.2)
  | Op.selectPose newPose gwRes =>
    let r := handlePoseSelect sys.appState newPose gwRes
    (sys.install r.1, r.2)
  | Op.changeBackground backgroundPrompt gwRes =>
    let r := handleBackgroundChange sys.appState backgroundPrompt gwRes
    (sys.install r.1, r.2)
  | Op.removeLayer layerIndex =>
    (sys.install (handleRemoveLayer sys.appState layerIndex), 0)

/-- State part of a step. -/
def stepOp (sys : AppSystem) (op : Op) : AppSystem :=
  (stepOpN sys op).1

/-- The system before any model is finalized. -/
def initSystem : AppSystem :=
  ⟨⟨[initialEditorState], 0⟩, none, false, false, false⟩

/-- Run a sequence of engine operations from the initial system. -/
def runOps (ops : List Op) : AppSystem :=
  ops.foldl stepOp initSystem

/-- Run a sequence of engine operations from a given system, also counting
the total number of Gateway calls made. -/
def runOpsCountFrom (sys : AppSystem) (ops : List Op) : AppSystem × Nat :=
  ops.foldl (fun p op => ((stepOpN p.1 op).1, p.2 + (stepOpN p.1 op).2)) (sys, 0)

/-- The snapshot currently shown. -/
def currentSnapshot (sys : AppSystem) : EditorState :=
  sys.store.state.getD initialEditorState

/-- The per-snapshot layer invariant: an empty layer list only before a model
is finalized, a valid active index whenever layers exist, and a garment-free
base layer. -/
def layerInv (st : EditorState) : Prop :=
  (st.outfitHistory = [] → st.modelImageUrl = none)
  ∧ (st.outfitHistory ≠ [] → st.currentOutfitIndex < st.outfitHistory.length)
  ∧ (∀ L, st.outfitHistory.head? = some L → L.garment = none)

/-- The system invariant: a valid cursor and the layer invariant for every
snapshot in the session history. -/
def sysInv (sys : AppSystem) : Prop :=
  sys.store.Valid ∧ ∀ st ∈ sys.store.history, layerInv st

theorem Store.undo_history {T : Type} (s : Store T) : s.undo.history = s.history := by
  unfold Store.undo
  split <;> rfl

theorem Store.redo_history {T : Type} (s : Store T) : s.redo.history = s.history := by
  unfold Store.redo
  split <;> rfl

theorem Store.undo_valid {T : Type} {s : Store T} (h : s.Valid) : s.undo.Valid := by
  unfold Store.undo
  have h' : s.currentIndex < s.history.length := h
  split
  · show s.currentIndex - 1 < s.history.length
    omega
  · exact h

theorem Store.redo_valid {T : Type} {s : Store T} (h : s.Valid) : s.redo.Valid := by
  unfold Store.redo
  have h' : s.currentIndex < s.history.length := h
  split
  · next hc => show s.currentIndex + 1 < s.history.length; omega
  · exact h

theorem layerInv_initial : layerInv initialEditorState := by
  refine ⟨fun _ => rfl, fun h0 => absurd rfl h0, ?_⟩
  intro L hL
  simp [initialEditorState] at hL

theorem layerInv_finalized (url : String) : layerInv (finalizedState url) := by
  refine ⟨?_, ?_, ?_⟩
  · intro h0
    simp [finalizedState] at h0
  · intro _
    show initialEditorState.currentOutfitIndex < 1
    decide
  · intro L hL
    simp only [finalizedState, List.head?_cons, Option.some.injEq] at hL
    rw [← hL]

/-- Replacing one layer by a layer with the same garment preserves the layer
invariant of any snapshot with the same layer list shape. -/
theorem layerInv_of_set (st : EditorState) (h : layerInv st) (i : Nat)
    (L newL : OutfitLayer) (hL : st.outfitHistory[i]? = some L)
    (hg : newL.garment = L.garment) (st2 : EditorState)
    (hh : st2.outfitHistory = st.outfitHistory.set i newL)
    (hi : st2.currentOutfitIndex = st.currentOutfitIndex)
    (_hm : st2.modelImageUrl = st.modelImageUrl) :
    layerInv st2 := by
  have hne : st.outfitHistory ≠ [] := by
    intro h0
    rw [h0] at hL
    simp at hL
  refine ⟨?_, ?_, ?_⟩
  · intro h0
    rw [hh] at h0
    exfalso
    apply hne
    have := congrArg List.length h0
    rw [List.length_set] at this
    exact List.length_eq_zero.mp this
  · intro _
    rw [hi, hh, List.length_set]
    exact h.2.1 hne
  · intro L2 hL2
    rw [hh] at hL2
    cases hlist : st.outfitHistory with
    | nil => exact absurd hlist hne
    | cons x t =>
      cases i with
      | zero =>
        have hxL : x = L := by
          rw [hlist] at hL
          simpa using hL
        rw [hlist] at hL2
        simp only [List.set_cons_zero, List.head?_cons, Option.some.injEq] at hL2
        rw [← hL2, hg, ← hxL]
        exact h.2.2 x (by rw [hlist]; rfl)
      | succ j =>
        rw [hlist] at hL2
        simp only [List.set_cons_succ, List.head?_cons, Option.some.injEq] at hL2
        rw [← hL2]
        exact h.2.2 x (by rw [hlist]; rfl)

/-- The truncate-and-append snapshot of a successful garment application
keeps the layer invariant. -/
theorem layerInv_applySuccess (st : EditorState) (h : layerInv st)
    (hne : st.outfitHistory ≠ []) (hidx : st.currentOutfitIndex < st.outfitHistory.length)
    (gi : WardrobeItem) (url : String) :
    layerInv { st with
      outfitHistory := st.outfitHistory.take (st.currentOutfitIndex + 1)
        ++ [{ garment := some gi, poseImages := [(st.currentPose, url)] }],
      currentOutfitIndex := st.currentOutfitIndex + 1 } := by
  have htk : (st.outfitHistory.take (st.currentOutfitIndex + 1)).length
      = st.currentOutfitIndex + 1 := by
    rw [List.length_take]
    omega
  refine ⟨?_, ?_, ?_⟩
  · intro h0
    simp at h0
  · intro _
    simp only [List.length_append, List.length_singleton, htk]
    omega
  · intro L hL
    cases hlist : st.outfitHistory with
    | nil => exact absurd hlist hne
    | cons x t =>
      rw [hlist] at hL
      simp only [List.take_succ_cons, List.cons_append, List.head?_cons,
        Option.some.injEq] at hL
      rw [← hL]
      exact h.2.2 x (by rw [hlist]; rfl)

theorem layerInv_handleGarmentSelect (app : AppState) (garmentInfo : WardrobeItem)
    (enhance : Bool) (cleanupRes tryOnRes : Except String String)
    (h : layerInv app.editor) :
    layerInv (handleGarmentSelect app garmentInfo enhance cleanupRes tryOnRes).1.editor := by
  unfold handleGarmentSelect
  split
  · exact h
  · next hguard =>
    have hdisp : (displayImageUrl app.editor).isNone = false := by
      cases hd : (displayImageUrl app.editor).isNone with
      | false => rfl
      | true => exact absurd (by rw [hd]; rfl) hguard
    split
    · next hshort =>
      unfold redoShortcut at hshort
      have hnext : ∃ nl, app.editor.outfitHistory[app.editor.currentOutfitIndex + 1]? = some nl := by
        cases hg : app.editor.outfitHistory[app.editor.currentOutfitIndex + 1]? with
        | some nl => exact ⟨nl, rfl⟩
        | none => rw [hg] at hshort; exact Bool.noConfusion hshort
      obtain ⟨nl, hnl⟩ := hnext
      have hlt : app.editor.currentOutfitIndex + 1 < app.editor.outfitHistory.length := by
        rcases List.getElem?_eq_some_iff.mp hnl with ⟨hlt, _⟩
        exact hlt
      have hne : app.editor.outfitHistory ≠ [] := by
        intro h0
        rw [h0] at hnl
        simp at hnl
      exact ⟨fun h0 => absurd h0 hne, fun _ => hlt, h.2.2⟩
    · have hne : app.editor.outfitHistory ≠ [] := by
        intro h0
        have hm : app.editor.modelImageUrl = none := h.1 h0
        unfold displayImageUrl at hdisp
        rw [h0] at hdisp
        simp [hm] at hdisp
      have hidx : app.editor.currentOutfitIndex < app.editor.outfitHistory.length :=
        h.2.1 hne
      unfold applyGarmentNetwork
      cases enhance with
      | true =>
        cases cleanupRes with
        | error msg => exact h
        | ok enhancedUrl =>
          cases tryOnRes with
          | error msg => exact h
          | ok newImageUrl => exact layerInv_applySuccess app.editor h hne hidx _ newImageUrl
      | false =>
        cases tryOnRes with
        | error msg => exact h
        | ok newImageUrl => exact layerInv_applySuccess app.editor h hne hidx _ newImageUrl

theorem layerInv_handlePoseSelect (app : AppState) (newPose : String)
    (gwRes : Except String String) (h : layerInv app.editor) :
    layerInv (handlePoseSelect app newPose gwRes).1.editor := by
  cases gwRes with
  | error msg =>
    unfold handlePoseSelect
    split
    · exact h
    · split
      · exact h
      · split
        · exact ⟨h.1, h.2.1, h.2.2⟩
        · split
          · exact h
          · exact ⟨h.1, h.2.1, h.2.2⟩
  | ok newImageUrl =>
    unfold handlePoseSelect
    split
    · exact h
    · split
      · exact h
      · next currentLayer hcl =>
        split
        · exact ⟨h.1, h.2.1, h.2.2⟩
        · split
          · exact h
          · exact layerInv_of_set app.editor h app.editor.currentOutfitIndex currentLayer
              { currentLayer with
                  poseImages := upsertPose currentLayer.poseImages newPose newImageUrl }
              hcl rfl _ rfl rfl rfl

theorem layerInv_handleBackgroundChange (app : AppState) (backgroundPrompt : String)
    (gwRes : Except String String) (h : layerInv app.editor) :
    layerInv (handleBackgroundChange app backgroundPrompt gwRes).1.editor := by
  unfold handleBackgroundChange
  split
  · exact h
  · cases gwRes with
    | error msg => exact h
    | ok newImageUrl =>
      cases hcl : app.editor.outfitHistory[app.editor.currentOutfitIndex]? with
      | none => exact h
      | some currentLayer =>
        exact layerInv_of_set app.editor h app.editor.currentOutfitIndex currentLayer
          { currentLayer with
              poseImages := upsertPose currentLayer.poseImages app.editor.currentPose
                newImageUrl }
          hcl rfl _ rfl rfl rfl

theorem layerInv_removeLayerEditor (st : EditorState) (h : layerInv st) (layerIndex : Nat)
    (st2 : EditorState) (h2 : removeLayerEditor st layerIndex = some st2) :
    layerInv st2 := by
  unfold removeLayerEditor at h2
  cases hlast : (st.outfitHistory.take layerIndex)[layerIndex - 1]? with
  | none =>
    simp only [hlast] at h2
    exact absurd h2 (by simp)
  | some lastValidLayer =>
    simp only [hlast] at h2
    have hlt : layerIndex - 1 < (st.outfitHistory.take layerIndex).length :=
      (List.getElem?_eq_some_iff.mp hlast).1
    have hne : st.outfitHistory ≠ [] := by
      intro h0
      rw [h0] at hlast
      simp at hlast
    have h1 : 1 ≤ layerIndex := by
      by_contra hc
      have h0 : layerIndex = 0 := by omega
      rw [h0] at hlast
      simp at hlast
    have hmain : ∀ s2 : EditorState, s2.outfitHistory = st.outfitHistory.take layerIndex →
        s2.currentOutfitIndex = layerIndex - 1 → layerInv s2 := by
      intro s2 hh hi
      refine ⟨?_, ?_, ?_⟩
      · intro h0
        rw [hh] at h0
        rw [h0] at hlt
        simp at hlt
      · intro _
        rw [hi, hh]
        exact hlt
      · intro L hL
        rw [hh] at hL
        cases hlist : st.outfitHistory with
        | nil => exact absurd hlist hne
        | cons x t =>
          rw [hlist] at hL
          cases hli : layerIndex with
          | zero => omega
          | succ j =>
            rw [hli] at hL
            simp only [List.take_succ_cons, List.head?_cons, Option.some.injEq] at hL
            rw [← hL]
            exact h.2.2 x (by rw [hlist]; rfl)
    cases hlk : lookupPose st.currentPose lastValidLayer.poseImages with
    | some u =>
      simp only [hlk, Option.some.injEq] at h2
      exact hmain st2 (by rw [← h2]) (by rw [← h2])
    | none =>
      simp only [hlk] at h2
      cases hhd : lastValidLayer.poseImages.head? with
      | none =>
        simp only [hhd] at h2
        exact absurd h2 (by simp)
      | some kv =>
        simp only [hhd, Option.some.injEq] at h2
        exact hmain st2 (by rw [← h2]) (by rw [← h2])

theorem layerInv_handleRemoveLayer (app : AppState) (layerIndex : Nat)
    (h : layerInv app.editor) :
    layerInv (handleRemoveLayer app layerIndex).editor := by
  unfold handleRemoveLayer
  split
  · exact h
  · split
    · exact h
    · next st2 heq => exact layerInv_removeLayerEditor app.editor h layerIndex st2 heq

theorem sysInv_install (sys : AppSystem) (app : AppState) (h : sysInv sys)
    (happ : layerInv app.editor) : sysInv (sys.install app) := by
  refine ⟨Store.set_valid h.1 _, ?_⟩
  intro st hst
  rcases Store.mem_set h.1 _ hst with hmem | ⟨cur, _, heq⟩
  · exact h.2 st hmem
  · rw [heq]
    exact happ

theorem appState_editor_inv (sys : AppSystem) (h : sysInv sys) :
    layerInv sys.appState.editor := by
  obtain ⟨cur, hcur⟩ := Store.exists_state _ h.1
  have he : sys.appState.editor = cur := by
    show (sys.store.state.getD initialEditorState) = cur
    unfold Store.state
    rw [hcur]
    rfl
  rw [he]
  exact h.2 cur (List.getElem?_mem hcur)

theorem sysInv_stepOp (sys : AppSystem) (op : Op) (h : sysInv sys) :
    sysInv (stepOp sys op) := by
  have happ := appState_editor_inv sys h
  cases op with
  | finalizeModel url =>
    refine ⟨Nat.one_pos, ?_⟩
    intro st hst
    simp only [stepOp, stepOpN, Store.resetState, List.mem_singleton] at hst
    rw [hst]
    exact layerInv_finalized url
  | reset =>
    refine ⟨Nat.one_pos, ?_⟩
    intro st hst
    simp only [stepOp, stepOpN, Store.resetState, List.mem_singleton] at hst
    rw [hst]
    exact layerInv_initial
  | undo =>
    refine ⟨Store.undo_valid h.1, ?_⟩
    intro st hst
    rw [show (stepOp sys Op.undo).store = sys.store.undo from rfl, Store.undo_history] at hst
    exact h.2 st hst
  | redo =>
    refine ⟨Store.redo_valid h.1, ?_⟩
    intro st hst
    rw [show (stepOp sys Op.redo).store = sys.store.redo from rfl, Store.redo_history] at hst
    exact h.2 st hst
  | applyGarment garmentInfo enhance cleanupRes tryOnRes =>
    exact sysInv_install sys _ h
      (layerInv_handleGarmentSelect sys.appState garmentInfo enhance cleanupRes tryOnRes happ)
  | selectPose newPose gwRes =>
    exact sysInv_install sys _ h (layerInv_handlePoseSelect sys.appState newPose gwRes happ)
  | changeBackground backgroundPrompt gwRes =>
    exact sysInv_install sys _ h
      (layerInv_handleBackgroundChange sys.appState backgroundPrompt gwRes happ)
  | removeLayer layerIndex =>
    exact sysInv_install sys _ h (layerInv_handleRemoveLayer sys.appState layerIndex happ)

theorem sysInv_foldl : ∀ (ops : List Op) (sys : AppSystem), sysInv sys →
    sysInv (ops.foldl stepOp sys)
  | [], _, h => h
  | op :: ops, sys, h => by
    rw [List.foldl_cons]
    exact sysInv_foldl ops (stepOp sys op) (sysInv_stepOp sys op h)

theorem sysInv_init : sysInv initSystem := by
  refine ⟨Nat.one_pos, ?_⟩
  intro st hst
  simp only [initSystem, List.mem_singleton] at hst
  rw [hst]
  exact layerInv_initial

/-- C7: layer invariant.  After every sequence of engine operations
(`finalizeModel`, `applyGarment`, `selectPose`, `changeBackground`,
`removeLayer`, `reset`, `undo`, `redo`), the current snapshot's
`activeLayerIndex` is a valid index into the layer list whenever that list
is non-empty, and the layer at index 0 always has an absent garment. -/
theorem c7_layer_invariant (ops : List Op) :
    ((currentSnapshot (runOps ops)).outfitHistory ≠ [] →
      (currentSnapshot (runOps ops)).currentOutfitIndex <
        (currentSnapshot (runOps ops)).outfitHistory.length)
    ∧ (∀ L, (currentSnapshot (runOps ops)).outfitHistory.head? = some L →
        L.garment = none) := by
  have hinv : sysInv (runOps ops) := sysInv_foldl ops initSystem sysInv_init
  have h := appState_editor_inv (runOps ops) hinv
  exact ⟨h.2.1, h.2.2⟩

/-- Witness for C7: after finalizing a model and applying a garment, the
active index is in range and the head layer is garment-free. -/
theorem c7_witness :
    (currentSnapshot (runOps [Op.finalizeModel "M",
        Op.applyGarment ⟨"g1", "G", "u", "top"⟩ false (Except.ok "E") (Except.ok "X")])).currentOutfitIndex <
      (currentSnapshot (runOps [Op.finalizeModel "M",
        Op.applyGarment ⟨"g1", "G", "u", "top"⟩ false (Except.ok "E") (Except.ok "X")])).outfitHistory.length
    ∧ (⟨none, [(POSE_INSTRUCTIONS.headD "", "M")]⟩ : OutfitLayer).garment = none := by
  have h := c7_layer_invariant [Op.finalizeModel "M",
    Op.applyGarment ⟨"g1", "G", "u", "top"⟩ false (Except.ok "E") (Except.ok "X")]
  exact ⟨h.1 (by decide), h.2 ⟨none, [(POSE_INSTRUCTIONS.headD "", "M")]⟩ (by decide)⟩

/-! The undo scenario of the spec, run concretely on the embedded system. -/

/-- The garment of the scenario. -/
def g1Item : WardrobeItem :=
  ⟨"g1", "Garment One", "garment-one.png", "top"⟩

/-- Scenario prefix: finalize model `M`, apply `g1` with the Gateway
returning `X`. -/
def c1Ops : List Op :=
  [Op.finalizeModel "M",
   Op.applyGarment g1Item false (Except.ok "E") (Except.ok "X")]

/-- Scenario prefix followed by `undo`. -/
def c1OpsUndo : List Op :=
  c1Ops ++ [Op.undo]

/-- C1 counterexample: in the embedded code, after `finalizeModel(M)`,
applying `g1` (Gateway returns `X`) and `undo()`, the layer for `g1` is NOT
present at index 1 of the current snapshot's layer sequence (the current
snapshot has a single layer), and re-applying `g1` performs a Gateway call
(count 1, not 0) — refuting the claim's redo-stash conjuncts. -/
theorem c1_counterexample :
    (currentSnapshot (runOps c1OpsUndo)).outfitHistory[1]? = none
    ∧ (stepOpN (runOps c1OpsUndo)
        (Op.applyGarment g1Item false (Except.ok "E") (Except.ok "X"))).2 = 1 := by
  exact ⟨rfl, rfl⟩

/-- C1 as amended: `finalizeModel(M)` displays `M` with one layer; applying
`g1` with the Gateway returning `X` displays `X` with `activeLayerIndex = 1`;
`undo()` displays `M` again with `activeLayerIndex` back to 0, but the layer
for `g1` is no longer in the current snapshot's layer sequence (the whole
pre-undo snapshot is redo-stashed in the session store instead); `redo()`
restores displayed image `X` with no Gateway call, while re-applying `g1`
yields displayed image `X` again at the cost of a second Gateway call. -/
theorem c1_undo_scenario :
    (displayImageUrl (currentSnapshot (runOps [Op.finalizeModel "M"])) = some "M"
      ∧ (currentSnapshot (runOps [Op.finalizeModel "M"])).outfitHistory.length = 1)
    ∧ (displayImageUrl (currentSnapshot (runOps c1Ops)) = some "X"
      ∧ (currentSnapshot (runOps c1Ops)).currentOutfitIndex = 1)
    ∧ (displayImageUrl (currentSnapshot (runOps c1OpsUndo)) = some "M"
      ∧ (currentSnapshot (runOps c1OpsUndo)).currentOutfitIndex = 0
      ∧ (currentSnapshot (runOps c1OpsUndo)).outfitHistory.length = 1)
    ∧ (displayImageUrl (currentSnapshot (stepOp (runOps c1OpsUndo) Op.redo)) = some "X"
      ∧ (stepOpN (runOps c1OpsUndo) Op.redo).2 = 0)
    ∧ (displayImageUrl (currentSnapshot (stepOp (runOps c1OpsUndo)
          (Op.applyGarment g1Item false (Except.ok "E") (Except.ok "X")))) = some "X"
      ∧ (stepOpN (runOps c1OpsUndo)
          (Op.applyGarment g1Item false (Except.ok "E") (Except.ok "X"))).2 = 1) := by
  exact ⟨⟨rfl, rfl⟩, ⟨rfl, rfl⟩, ⟨rfl, rfl, rfl⟩, ⟨rfl, rfl⟩, ⟨rfl, rfl⟩⟩

end FitCheck
